import Mathlib

/-!
Verification of the quran-notes-keeper client against its specification.

The development shallowly embeds the repository's TypeScript routines in
Lean: strings are `String`/`List Char`, JS numbers that hold integers are
`Int`/`Nat`, Firestore is an explicit record of collections, and the
asynchronous handlers become pure functions from an explicit outcome of
the backend call to the new state plus the list of emitted effects.
-/

namespace QuranNotes

/-! ## JS string primitives

`src/lib/utils.ts` runs JavaScript regexes over plain text.  The four
patterns used there contain only literal words, `\d+`, `\s+`, `[\s,]+`
and the alternation `(?:verse|ayah)`.  For such patterns the greedy
backtracking semantics of the JS engine coincides with deterministic
maximal munch: every `\d+`/`\s+`/`[\s,]+` is followed by a character
that the repeated class can never match (a digit after `\s+`, `:` or a
space after `\d+`, a letter after `[\s,]+`), so shrinking a greedy run
can never enable the rest of the pattern.  The embedding below therefore
uses maximal-munch scanners, and `findMatch` restores the leftmost-match
rule of `String.prototype.match` by trying every start position from the
left. -/

/-- The JS regex class `\d`: exactly the ASCII digits. -/
def jsDigit (c : Char) : Bool :=
  '0' ≤ c && c ≤ '9'

/-- The JS regex class `\s`: ASCII whitespace plus the Unicode space
characters recognised by ECMAScript. -/
def jsSpace (c : Char) : Bool :=
  c = ' ' || c = '\t' || c = '\n' || c = '\x0d' || c = '\x0b' || c = '\x0c' ||
  c = '\u00A0' || c = '\u1680' || ('\u2000' ≤ c && c ≤ '\u200A') ||
  c = '\u2028' || c = '\u2029' || c = '\u202F' || c = '\u205F' || c = '\uFEFF' ||
  c = '\u3000'

/-- ASCII lower-casing, the case folding relevant to the `i` flag on the
ASCII-only literals of the patterns in `extractSurahVerse`. -/
def lowerChar (c : Char) : Char :=
  if 'A' ≤ c && c ≤ 'Z' then Char.ofNat (c.toNat + 32) else c

/-- Case-insensitively consume the literal word `w` from the front of
`s`; return the rest of `s` on success. -/
def litCI : List Char → List Char → Option (List Char)
  | [], s => some s
  | _ :: _, [] => none
  | w :: ws, c :: cs => if lowerChar c = w then litCI ws cs else none

/-- Maximal munch of one-or-more characters satisfying `p` (the greedy
`p+`); returns the run and the rest. -/
def munch1 (p : Char → Bool) : List Char → Option (List Char × List Char)
  | [] => none
  | c :: cs =>
    if p c then some (c :: cs.takeWhile p, cs.dropWhile p) else none

/-- The greedy `\d+`, returning the digit run and the rest. -/
def digits1 (s : List Char) : Option (List Char × List Char) :=
  munch1 jsDigit s

/-- The greedy `\s+`, returning the rest. -/
def spaces1 (s : List Char) : Option (List Char) :=
  (munch1 jsSpace s).map (fun r => r.2)

/-- `String.prototype.trim`: strip leading and trailing JS whitespace
(the ECMAScript WhiteSpace and LineTerminator characters, i.e. the
`jsSpace` set). -/
def jsTrim (s : String) : String :=
  ⟨((s.data.dropWhile jsSpace).reverse.dropWhile jsSpace).reverse⟩

/-- The value of `parseInt` on a non-empty captured digit run, taken
exactly (JS floats round above 2^53, far beyond the 1–114 surah and
verse ranges these claims are about). -/
def digitsVal (ds : List Char) : Nat :=
  ds.foldl (fun a c => 10 * a + (c.toNat - '0'.toNat)) 0

/-- The regex fragment `(?:verse|ayah)` under the `i` flag. -/
def verseOrAyah (s : List Char) : Option (List Char) :=
  (litCI "verse".data s).orElse (fun _ => litCI "ayah".data s)

/-! ## `extractSurahVerse` (src/lib/utils.ts)

Each `p*At` function matches one of the four source patterns anchored at
the start of its argument and returns the two `parseInt`-ed captures. -/

/-- Pattern `/surah\s+(\d+)\s+(?:verse|ayah)\s+(\d+)/i` anchored at the
start of `s`. -/
def p1At (s : List Char) : Option (Nat × Nat) :=
  (litCI "surah".data s).bind fun s =>
  (spaces1 s).bind fun s =>
  (digits1 s).bind fun ds =>
  (spaces1 ds.2).bind fun s =>
  (verseOrAyah s).bind fun s =>
  (spaces1 s).bind fun s =>
  (digits1 s).map fun ds2 => (digitsVal ds.1, digitsVal ds2.1)

/-- Pattern `/chapter\s+(\d+)\s+(?:verse|ayah)\s+(\d+)/i` anchored at
the start of `s`. -/
def p2At (s : List Char) : Option (Nat × Nat) :=
  (litCI "chapter".data s).bind fun s =>
  (spaces1 s).bind fun s =>
  (digits1 s).bind fun ds =>
  (spaces1 ds.2).bind fun s =>
  (verseOrAyah s).bind fun s =>
  (spaces1 s).bind fun s =>
  (digits1 s).map fun ds2 => (digitsVal ds.1, digitsVal ds2.1)

/-- Pattern `/(\d+):(\d+)/` anchored at the start of `s`. -/
def p3At (s : List Char) : Option (Nat × Nat) :=
  (digits1 s).bind fun ds =>
  match ds.2 with
  | ':' :: rest => (digits1 rest).map fun ds2 => (digitsVal ds.1, digitsVal ds2.1)
  | _ => none

/-- Pattern `/(\d+)[\s,]+(?:verse|ayah)\s+(\d+)/i` anchored at the
start of `s`. -/
def p4At (s : List Char) : Option (Nat × Nat) :=
  (digits1 s).bind fun ds =>
  (munch1 (fun c => jsSpace c || c = ',') ds.2).bind fun r =>
  (verseOrAyah r.2).bind fun s =>
  (spaces1 s).bind fun s =>
  (digits1 s).map fun ds2 => (digitsVal ds.1, digitsVal ds2.1)

/-- Leftmost match: `text.match(pattern)` tries every start position
from the left and returns the first success. -/
def findMatch (p : List Char → Option (Nat × Nat)) : List Char → Option (Nat × Nat)
  | [] => p []
  | c :: rest =>
    match p (c :: rest) with
    | some r => some r
    | none => findMatch p rest

/-- The ordered pattern list of `extractSurahVerse`. -/
def patterns : List (List Char → Option (Nat × Nat)) :=
  [p1At, p2At, p3At, p4At]

/-- Result record of `extractSurahVerse`: `surah`/`verse` are JS
`number | null`. -/
structure ExtractResult where
  surah : Option Nat
  verse : Option Nat
deriving DecidableEq, Repr

/-- The `for (const pattern of patterns)` loop body: first pattern with
a match anywhere in the text supplies both captures. -/
def tryPatterns : List (List Char → Option (Nat × Nat)) → List Char → ExtractResult
  | [], _ => ⟨none, none⟩
  | p :: ps, t =>
    match findMatch p t with
    | some r => ⟨some r.1, some r.2⟩
    | none => tryPatterns ps t

/-- `extractSurahVerse` from src/lib/utils.ts. -/
def extractSurahVerse (text : String) : ExtractResult :=
  tryPatterns patterns text.data

/-! ## Notes and `filterAndSortNotes` (src/components/NoteList.tsx)

`QuranNote` mirrors the interface of src/lib/types.ts; Firestore
`Timestamp`s are represented by their `toMillis()` value, with `none`
for a missing field (the source guards with `createdAt?.toMillis() || 0`). -/

/-- A loaded note (src/lib/types.ts `QuranNote`). -/
structure QuranNote where
  id : String
  surah : Int
  verse : Int
  text : String
  projectId : String
  userId : String
  createdAt : Option Int
  updatedAt : Option Int
  audioUrl : Option String
deriving DecidableEq, Repr

/-- ASCII lower-casing of a string (`toLowerCase` on the ASCII texts the
filter handles). -/
def lowerStr (s : String) : String :=
  ⟨s.data.map lowerChar⟩

/-- Does `hay` start with `sub`? -/
def startsWithList : List Char → List Char → Bool
  | _, [] => true
  | [], _ :: _ => false
  | c :: cs, n :: ns => c = n && startsWithList cs ns

/-- `String.prototype.includes`: `sub` occurs somewhere in `hay`. -/
def containsSub (sub : List Char) : List Char → Bool
  | [] => startsWithList [] sub
  | c :: t => startsWithList (c :: t) sub || containsSub sub t

/-- `hay.includes(sub)` on strings. -/
def jsIncludes (hay sub : String) : Bool :=
  containsSub sub.data hay.data

/-- The search predicate of `filterAndSortNotes`; `q` is the already
lower-cased search query. -/
def matchesSearch (q : String) (note : QuranNote) : Bool :=
  jsIncludes (lowerStr note.text) q ||
  jsIncludes ("surah " ++ toString note.surah) q ||
  jsIncludes ("verse " ++ toString note.verse) q ||
  jsIncludes (toString note.surah ++ ":" ++ toString note.verse) q

/-- The four orderings of the sort dropdown. -/
inductive SortOption
  | surahAsc
  | surahDesc
  | recent
  | oldest
deriving DecidableEq, Repr

/-- `note.createdAt?.toMillis() || 0`. -/
def noteTimeMillis (note : QuranNote) : Int :=
  match note.createdAt with
  | some t => t
  | none => 0

/-- The `surah-asc` comparator
`a.surah === b.surah ? a.verse - b.verse : a.surah - b.surah`. -/
def compareSurahAsc (a b : QuranNote) : Int :=
  if a.surah = b.surah then a.verse - b.verse else a.surah - b.surah

/-- The `surah-desc` comparator
`a.surah === b.surah ? b.verse - a.verse : b.surah - a.surah`. -/
def compareSurahDesc (a b : QuranNote) : Int :=
  if a.surah = b.surah then b.verse - a.verse else b.surah - a.surah

/-- The `recent` comparator `bTime - aTime`. -/
def compareRecent (a b : QuranNote) : Int :=
  noteTimeMillis b - noteTimeMillis a

/-- The `oldest` comparator `aTime - bTime`. -/
def compareOldest (a b : QuranNote) : Int :=
  noteTimeMillis a - noteTimeMillis b

/-- `Array.prototype.sort` with a consistent comparator returns the
stable sorted permutation of the array, which is exactly what
`List.mergeSort` with the relation `cmp a b ≤ 0` computes. -/
def jsSortBy (cmp : QuranNote → QuranNote → Int) (l : List QuranNote) : List QuranNote :=
  l.mergeSort (fun a b => cmp a b ≤ 0)

/-- `filterAndSortNotes` from src/components/NoteList.tsx: early return
on an empty note list, then the search filter (applied only for a truthy
i.e. non-empty query), then the comparator selected by `sortOption`. -/
def filterAndSortNotes (notes : List QuranNote) (searchQuery : String) (sortOption : SortOption) : List QuranNote :=
  if notes.isEmpty then []
  else
    let filtered :=
      if searchQuery = "" then notes
      else notes.filter (matchesSearch (lowerStr searchQuery))
    match sortOption with
    | .surahAsc => jsSortBy compareSurahAsc filtered
    | .surahDesc => jsSortBy compareSurahDesc filtered
    | .recent => jsSortBy compareRecent filtered
    | .oldest => jsSortBy compareOldest filtered

/-! ## Firestore model

The backend is a document database with two collections, keyed by
document id.  A write batch is a list of operations applied atomically
by `commit`: either all of them take effect or none does. -/

/-- A note document as stored in the `notes` collection (the `id` is
the document key, kept outside).  `createdAt`/`updatedAt` are set from
server timestamps and irrelevant to the verified properties. -/
structure NoteDoc where
  surah : Int
  verse : Int
  text : String
  projectId : String
  userId : String
deriving DecidableEq, Repr

/-- A project document as stored in the `projects` collection. -/
structure ProjectDoc where
  name : String
  description : String
  userId : String
  color : Option String
deriving DecidableEq, Repr

/-- The two collections used by the app. -/
structure DbState where
  projects : List (String × ProjectDoc)
  notes : List (String × NoteDoc)
deriving DecidableEq, Repr

/-- `query(collection(db, "notes"), where("projectId", "==", pid))`
followed by `getDocs`. -/
def queryNotesByProject (db : DbState) (pid : String) : List (String × NoteDoc) :=
  db.notes.filter (fun e => e.2.projectId = pid)

/-- The delete operations that `ProjectList.handleConfirmDelete` puts in
its write batch. -/
inductive BatchOp
  | delNote (id : String)
  | delProject (id : String)
deriving DecidableEq, Repr

/-- Effect of one batched delete on the database. -/
def applyOp (db : DbState) : BatchOp → DbState
  | .delNote i => { db with notes := db.notes.filter (fun e => e.1 ≠ i) }
  | .delProject i => { db with projects := db.projects.filter (fun e => e.1 ≠ i) }

/-- `batch.commit()` on success: all operations applied in order. -/
def commitBatch (db : DbState) (ops : List BatchOp) : DbState :=
  ops.foldl applyOp db

/-- The batch built by `handleConfirmDelete`: one delete per note
returned by the `projectId == pid` query, then the project delete. -/
def deleteProjectBatch (db : DbState) (pid : String) : List BatchOp :=
  (queryNotesByProject db pid).map (fun e => BatchOp.delNote e.1) ++
    [BatchOp.delProject pid]

/-- A `toast(...)` notification. -/
structure Toast where
  title : String
  description : String
  destructive : Bool
deriving DecidableEq, Repr

/-- Result of an awaited backend call. -/
inductive CommitOutcome
  | success
  | failure (message : String)
deriving DecidableEq, Repr

/-- Observable result of `handleConfirmDelete`: the database, the local
`projects` state of the component, the emitted toasts, and how many
`commit()` calls were made. -/
structure DeleteResult where
  db : DbState
  localProjects : List (String × ProjectDoc)
  toasts : List Toast
  commits : Nat
deriving DecidableEq, Repr

/-- `handleConfirmDelete` from src/components/ProjectList.tsx: build one
batch (note deletes from the `projectId` query plus the project delete),
commit it once; on success filter the local list and toast success, on a
rejected commit leave everything unchanged and toast the error. -/
def handleConfirmDelete (db : DbState) (localProjects : List (String × ProjectDoc))
    (projectToDelete : String × ProjectDoc) (outcome : CommitOutcome) : DeleteResult :=
  let batch := deleteProjectBatch db projectToDelete.1
  match outcome with
  | .success =>
    { db := commitBatch db batch
      localProjects := localProjects.filter (fun q => q.1 ≠ projectToDelete.1)
      toasts := [⟨"Reading Pass Deleted",
        "\"" ++ projectToDelete.2.name ++ "\" and all associated notes have been deleted", false⟩]
      commits := 1 }
  | .failure m =>
    { db := db
      localProjects := localProjects
      toasts := [⟨"Failed to delete reading pass", m, true⟩]
      commits := 1 }

/-! ## Referential invariant and the operations that write notes (C6) -/

/-- Invariant of section 3 of the spec: every note's `projectId` names
an existing project owned by the note's own user. -/
def noteRefsOk (db : DbState) : Prop :=
  ∀ e ∈ db.notes, ∃ q ∈ db.projects, q.1 = e.2.projectId ∧ q.2.userId = e.2.userId

/-- The `addDoc(collection(db, "notes"), newNoteData)` call of
`NoteForm.handleSubmit` (create branch): the new document's `projectId`
and `userId` are the component's props. -/
def createNote (db : DbState) (newId : String) (surah verse : Int)
    (text projectId userId : String) : DbState :=
  { db with notes := db.notes ++ [(newId, ⟨surah, verse, text, projectId, userId⟩)] }

/-- The `updateDoc(noteRef, { projectId, updatedAt })` call of
`NoteMoveToAnotherPass.handleMoveToProject`. -/
def moveNote (db : DbState) (noteId targetPid : String) : DbState :=
  { db with notes := db.notes.map (fun e =>
      if e.1 = noteId then (e.1, { e.2 with projectId := targetPid }) else e) }

/-! ## NoteForm submission pipeline (C5)

State machine for the create-mode `NoteForm` (src/components/NoteForm.tsx
and its later revision): React state plus the list of note documents sent
to `addDoc`.  JS field values can be a string (typed input), a number
(auto-filled by extraction) or `null`. -/

/-- A surah record (src/lib/types.ts `QuranSurah`). -/
structure QuranSurah where
  number : Int
  name : String
  englishName : String
  englishNameTranslation : String
  numberOfAyahs : Int
  revelationType : String
deriving DecidableEq, Repr

/-- `getMaxVerseNumber` from src/lib/utils.ts: find the surah with the
given number and return its `numberOfAyahs`, else `null` (after a
console warning).  The argument is an `Option` because the callers pass
`parseInt`/`Number` results, whose `NaN` is modelled as `none` (and
`NaN === x` is false for every `x`). -/
def getMaxVerseNumber (surahNumber : Option Int) (surahs : List QuranSurah) : Option Int :=
  match surahs.find? (fun s =>
      match surahNumber with
      | some v => s.number = v
      | none => false) with
  | some matchingSurah => some matchingSurah.numberOfAyahs
  | none => none

/-- A JS value held by the `surah`/`verse` React state
(`number | string`, plus the `null` that `setVerse(surahMaxVerse)` can
store when `getMaxVerseNumber` returned `null`). -/
inductive JsVal
  | vstr (s : String)
  | vnum (n : Int)
  | vnull
deriving DecidableEq, Repr

/-- JS truthiness of such a value: non-empty string, non-zero number. -/
def truthy : JsVal → Bool
  | .vstr s => s ≠ ""
  | .vnum n => n ≠ 0
  | .vnull => false

/-- `Number(x)` on the integer-valued strings the number inputs and the
extraction effect can produce (`none` models `NaN`). -/
def jsToNumber : JsVal → Option Int
  | .vnull => some 0
  | .vnum n => some n
  | .vstr s =>
    match s.data with
    | [] => some 0
    | '-' :: rest =>
      if rest ≠ [] && rest.all jsDigit then some (-(digitsVal rest : Int)) else none
    | l => if l.all jsDigit then some ((digitsVal l : Int)) else none

/-- `parseInt(s)` on the same strings (`none` models `NaN`; unlike
`Number`, `parseInt("")` is `NaN`). -/
def jsParseInt (s : String) : Option Int :=
  match s.data with
  | [] => none
  | '-' :: rest =>
    if rest ≠ [] && rest.all jsDigit then some (-(digitsVal rest : Int)) else none
  | l => if l.all jsDigit then some ((digitsVal l : Int)) else none

/-- React state of a create-mode `NoteForm`, plus the documents the form
has sent to `addDoc`. -/
structure NoteFormState where
  transcription : String
  surah : JsVal
  verse : JsVal
  maxVerse : Option Int
  written : List NoteDoc
deriving DecidableEq, Repr

/-- Initial state: empty fields, `maxVerse` 0. -/
def initialForm : NoteFormState :=
  ⟨"", .vstr "", .vstr "", some 0, []⟩

/-- The `useEffect([transcription])` body: run `extractSurahVerse` and
auto-fill each field whose extracted value is truthy. -/
def extractionEffect (st : NoteFormState) : NoteFormState :=
  if st.transcription ≠ "" then
    let r := extractSurahVerse st.transcription
    let st1 :=
      match r.surah with
      | some s => if s ≠ 0 then { st with surah := .vnum (s : Int) } else st
      | none => st
    match r.verse with
    | some v => if v ≠ 0 then { st1 with verse := .vnum (v : Int) } else st1
    | none => st1
  else st

/-- The body of the 500 ms timeout in the `useEffect([surah, verse])` of
the later NoteForm revision: when both fields are truthy, clamp the
verse to `getMaxVerseNumber(Number(surah))` whenever
`Number(verse) > surahMaxVerse` (JS coerces a `null` bound to 0 and
makes every comparison with `NaN` false); otherwise it only fetches the
verse preview, which does not touch the form fields. -/
def clampEffect (surahs : List QuranSurah) (st : NoteFormState) : NoteFormState :=
  if truthy st.surah && truthy st.verse then
    let surahMaxVerse := getMaxVerseNumber (jsToNumber st.surah) surahs
    let exceeds : Bool :=
      match jsToNumber st.verse, surahMaxVerse with
      | some v, some mx => decide (v > mx)
      | some v, none => decide (v > 0)
      | none, _ => false
    if exceeds then
      { st with verse := match surahMaxVerse with
          | some mx => .vnum mx
          | none => .vnull }
    else st
  else st

/-- `handleSubmit` (create branch): reject an empty note, reject falsy
`surah`/`verse`, otherwise send
`{ surah: Number(surah), verse: Number(verse), text: trim, projectId,
userId }` to `addDoc` and reset the fields. -/
def handleSubmit (projectId userId : String) (st : NoteFormState) : NoteFormState :=
  if jsTrim st.transcription = "" then st
  else if !(truthy st.surah) || !(truthy st.verse) then st
  else
    match jsToNumber st.surah, jsToNumber st.verse with
    | some sv, some vv =>
      { st with
        written := st.written ++ [⟨sv, vv, jsTrim st.transcription, projectId, userId⟩]
        transcription := ""
        surah := .vstr ""
        verse := .vstr "" }
    | _, _ => st

/-- User-visible events driving the form. -/
inductive FormEvent
  | setText (s : String)
  | typeSurah (s : String)
  | typeVerse (s : String)
  | clampTick
  | submit
deriving DecidableEq, Repr

/-- One step of the form state machine.  `typeSurah` is the surah
input's `onChange` (store the raw string, clear the verse, recompute
`maxVerse`); `typeVerse` stores the raw string; `clampTick` fires the
pending timeout. -/
def formStep (surahs : List QuranSurah) (projectId userId : String)
    (st : NoteFormState) : FormEvent → NoteFormState
  | .setText s => extractionEffect { st with transcription := s }
  | .typeSurah s =>
    { st with
      surah := .vstr s
      verse := .vstr ""
      maxVerse := getMaxVerseNumber (jsParseInt s) surahs }
  | .typeVerse s => { st with verse := .vstr s }
  | .clampTick => clampEffect surahs st
  | .submit => handleSubmit projectId userId st

/-- Run the form from its initial state over a list of events. -/
def runForm (surahs : List QuranSurah) (projectId userId : String)
    (events : List FormEvent) : NoteFormState :=
  events.foldl (formStep surahs projectId userId) initialForm

/-! ## `fetchQuranVerse` (src/lib/quranApi.ts) -/

/-- The fields of the `data` object of an API response that
`fetchQuranVerse` reads. -/
structure AyahData where
  numberInSurah : Int
  text : String
  surahNumber : Int
deriving DecidableEq, Repr

/-- Outcome of one `fetch`: an ok response with parsed JSON, a non-ok
response (`response.ok` false, carrying `statusText`), or a rejected
request. -/
inductive HttpResult
  | ok (body : AyahData)
  | httpError (statusText : String)
  | networkFailure (message : String)
deriving DecidableEq, Repr

/-- `response.ok`. -/
def respOk : HttpResult → Bool
  | .ok _ => true
  | _ => false

/-- The verse record returned on success (src/lib/types.ts). -/
structure QuranVerse where
  verse : Int
  text : String
  translation : String
  surah : Int
deriving DecidableEq, Repr

/-- `API_BASE_URL`. -/
def apiBaseUrl : String :=
  "https://api.alquran.cloud/v1"

/-- URL of the Arabic-text request. -/
def arabicUrl (surahNumber verseNumber : Int) : String :=
  apiBaseUrl ++ "/ayah/" ++ toString surahNumber ++ ":" ++ toString verseNumber

/-- URL of the translation request. -/
def translationUrl (surahNumber verseNumber : Int) : String :=
  arabicUrl surahNumber verseNumber ++ "/en.maududi"

/-- `fetchQuranVerse` from src/lib/quranApi.ts, with the network as an
explicit environment mapping a URL to its outcome.  Returns the requests
issued in order together with the result (`Except.error` models a
thrown/rethrown error). -/
def fetchQuranVerse (env : String → HttpResult) (surahNumber verseNumber : Int) :
    List String × Except String QuranVerse :=
  let u1 := arabicUrl surahNumber verseNumber
  match env u1 with
  | .networkFailure m => ([u1], .error m)
  | .httpError st => ([u1], .error ("Failed to fetch verse: " ++ st))
  | .ok arabicData =>
    let u2 := translationUrl surahNumber verseNumber
    match env u2 with
    | .networkFailure m => ([u1, u2], .error m)
    | .httpError st => ([u1, u2], .error ("Failed to fetch translation: " ++ st))
    | .ok translationData =>
      ([u1, u2],
        .ok ⟨arabicData.numberInSurah, arabicData.text,
          translationData.text, arabicData.surahNumber⟩)

/-! ## Error handling at the call sites (C7)

Each handler is embedded as the trace it produces: the backend requests
issued, in order, and the toasts shown.  A retry would appear as a second
entry in `backendOps`. -/

/-- Trace of one handler run. -/
structure HandlerTrace where
  backendOps : List String
  toasts : List Toast
deriving DecidableEq, Repr

/-- `Note.handleDelete` (src/components/Note.tsx): one `deleteDoc`, then
a success toast, or the error caught and shown as one destructive
toast. -/
def noteHandleDelete (noteId : String) (outcome : CommitOutcome) : HandlerTrace :=
  { backendOps := ["deleteDoc notes/" ++ noteId]
    toasts :=
      match outcome with
      | .success => [⟨"Note Deleted", "The note has been deleted successfully", false⟩]
      | .failure m => [⟨"Failed to delete note", m, true⟩] }

/-- The create branch of `NoteForm.handleSubmit` seen as one `addDoc`
attempt with its catch branch. -/
def noteFormAddAttempt (outcome : CommitOutcome) : HandlerTrace :=
  { backendOps := ["addDoc notes"]
    toasts :=
      match outcome with
      | .success => [⟨"Note Saved", "", false⟩]
      | .failure m => [⟨"Failed to save note", m, true⟩] }

/-- `handleMoveToProject` seen as one `updateDoc` attempt with its catch
branch. -/
def moveNoteAttempt (noteId : String) (outcome : CommitOutcome) : HandlerTrace :=
  { backendOps := ["updateDoc notes/" ++ noteId]
    toasts :=
      match outcome with
      | .success => [⟨"Note moved successfully",
          "Your note has been moved to the selected pass", false⟩]
      | .failure m => [⟨"Error moving note", m, true⟩] }

/-- The error callback of the notes `onSnapshot` subscription
(src/components/NoteList.tsx): it only toasts and clears the loading
flag; it does not resubscribe or issue any backend call. -/
def onNotesSnapshotError (message : String) : HandlerTrace :=
  { backendOps := []
    toasts := [⟨"Failed to load notes", message, true⟩] }

/-! ## Concrete fixtures used by the witnesses -/

/-- A one-surah list satisfying the 1–114 numbering of the data model. -/
def surahsDemo : List QuranSurah :=
  [⟨2, "Al-Baqara", "Al-Baqara", "The Cow", 286, "Medinan"⟩]

/-- A two-project, one-note database owned by user `u1`. -/
def dbDemo : DbState :=
  { projects := [("p1", ⟨"Pass 1", "", "u1", none⟩), ("p2", ⟨"Pass 2", "", "u1", none⟩)]
    notes := [("n1", ⟨1, 1, "first note", "p1", "u1"⟩)] }

/-- A network where exactly the two requests for 2:255 succeed. -/
def envDemo : String → HttpResult := fun u =>
  if u = arabicUrl 2 255 then .ok ⟨255, "arabic 2:255", 2⟩
  else if u = translationUrl 2 255 then .ok ⟨255, "english 2:255", 2⟩
  else .networkFailure "offline"

/-! ## Theorems -/

/-- Every run of `tryPatterns` fills both fields or neither. -/
lemma tryPatterns_shape (ps : List (List Char → Option (Nat × Nat))) (t : List Char) :
    tryPatterns ps t = ⟨none, none⟩ ∨ ∃ a b, tryPatterns ps t = ⟨some a, some b⟩ := by
  induction ps with
  | nil => exact Or.inl rfl
  | cons p ps ih =>
    cases h : findMatch p t with
    | none => simpa [tryPatterns, h] using ih
    | some r => exact Or.inr ⟨r.1, r.2, by simp [tryPatterns, h]⟩

/-- C2: for every input string in which none of the supported patterns
matches, `extractSurahVerse` returns null surah and null verse; and for
each supported pattern form it returns the two integers captured by that
pattern, e.g. surah 2 and verse 255 on input "2:255". -/
theorem extractSurahVerse_spec :
    (∀ t : String,
      findMatch p1At t.data = none → findMatch p2At t.data = none →
      findMatch p3At t.data = none → findMatch p4At t.data = none →
      extractSurahVerse t = ⟨none, none⟩) ∧
    extractSurahVerse "2:255" = ⟨some 2, some 255⟩ ∧
    extractSurahVerse "Surah 2 verse 255" = ⟨some 2, some 255⟩ ∧
    extractSurahVerse "Chapter 36 ayah 12" = ⟨some 36, some 12⟩ ∧
    extractSurahVerse "36 ayah 12" = ⟨some 36, some 12⟩ := by
  refine ⟨?_, by decide, by decide, by decide, by decide⟩
  intro t h1 h2 h3 h4
  simp [extractSurahVerse, patterns, tryPatterns, h1, h2, h3, h4]

/-- Witness for C2: a concrete text without any pattern occurrence. -/
theorem extractSurahVerse_spec_witness :
    extractSurahVerse "hello world" = ⟨none, none⟩ :=
  extractSurahVerse_spec.1 "hello world" (by decide) (by decide) (by decide) (by decide)

/-- C3: the four patterns are tried in the fixed source order
(surah-word, chapter-word, colon, number-word) and the first one that
matches anywhere in the text determines the result. -/
theorem extractSurahVerse_order (t : String) (a b : Nat) :
    (findMatch p1At t.data = some (a, b) → extractSurahVerse t = ⟨some a, some b⟩) ∧
    (findMatch p1At t.data = none → findMatch p2At t.data = some (a, b) →
      extractSurahVerse t = ⟨some a, some b⟩) ∧
    (findMatch p1At t.data = none → findMatch p2At t.data = none →
      findMatch p3At t.data = some (a, b) → extractSurahVerse t = ⟨some a, some b⟩) ∧
    (findMatch p1At t.data = none → findMatch p2At t.data = none →
      findMatch p3At t.data = none → findMatch p4At t.data = some (a, b) →
      extractSurahVerse t = ⟨some a, some b⟩) := by
  refine ⟨fun h1 => ?_, fun h1 h2 => ?_, fun h1 h2 h3 => ?_, fun h1 h2 h3 h4 => ?_⟩
  · simp [extractSurahVerse, patterns, tryPatterns, h1]
  · simp [extractSurahVerse, patterns, tryPatterns, h1, h2]
  · simp [extractSurahVerse, patterns, tryPatterns, h1, h2, h3]
  · simp [extractSurahVerse, patterns, tryPatterns, h1, h2, h3, h4]

/-- Witness for C3: the chapter pattern wins over the colon pattern that
also occurs later in the text, so the result is 9:10, not 1:2. -/
theorem extractSurahVerse_order_witness :
    extractSurahVerse "chapter 9 ayah 10 then 1:2" = ⟨some 9, some 10⟩ :=
  (extractSurahVerse_order "chapter 9 ayah 10 then 1:2" 9 10).2.1 (by decide) (by decide)

/-- C10: `extractSurahVerse` never returns exactly one null field: the
result is either both null or both integers. -/
theorem extractSurahVerse_both_or_neither (t : String) :
    extractSurahVerse t = ⟨none, none⟩ ∨
    ∃ a b : Nat, extractSurahVerse t = ⟨some a, some b⟩ :=
  tryPatterns_shape patterns t.data

/-- Transitivity of the boolean order induced by the `surah-asc`
comparator. -/
lemma ascBool_trans : ∀ a b c : QuranNote,
    decide (compareSurahAsc a b ≤ 0) = true → decide (compareSurahAsc b c ≤ 0) = true →
    decide (compareSurahAsc a c ≤ 0) = true := by
  intro a b c h1 h2
  simp only [decide_eq_true_eq] at h1 h2 ⊢
  unfold compareSurahAsc at h1 h2 ⊢
  split_ifs at h1 h2 ⊢ <;> omega

/-- Totality of the boolean order induced by the `surah-asc`
comparator. -/
lemma ascBool_total : ∀ a b : QuranNote,
    (decide (compareSurahAsc a b ≤ 0) || decide (compareSurahAsc b a ≤ 0)) = true := by
  intro a b
  simp only [Bool.or_eq_true, decide_eq_true_eq]
  unfold compareSurahAsc
  split_ifs <;> omega

/-- C4: sorting with the `surah-asc` option permutes the input, and
every adjacent pair is non-decreasing by surah then verse. -/
theorem filterAndSortNotes_surahAsc_correct (notes : List QuranNote) :
    (filterAndSortNotes notes "" .surahAsc).Perm notes ∧
    List.Chain' (fun a b => a.surah < b.surah ∨ (a.surah = b.surah ∧ a.verse ≤ b.verse))
      (filterAndSortNotes notes "" .surahAsc) := by
  cases notes with
  | nil => exact ⟨by simp [filterAndSortNotes], by simp [filterAndSortNotes]⟩
  | cons n ns =>
    have hfs : filterAndSortNotes (n :: ns) "" .surahAsc =
        (n :: ns).mergeSort (fun a b => decide (compareSurahAsc a b ≤ 0)) := by
      simp [filterAndSortNotes, jsSortBy]
    constructor
    · rw [hfs]
      exact List.mergeSort_perm _ _
    · rw [hfs]
      have hp := @List.sorted_mergeSort QuranNote
        (fun a b => decide (compareSurahAsc a b ≤ 0)) ascBool_trans ascBool_total (n :: ns)
      refine List.Pairwise.chain' (List.Pairwise.imp ?_ hp)
      intro a b hab
      simp only [decide_eq_true_eq] at hab
      unfold compareSurahAsc at hab
      by_cases h : a.surah = b.surah
      · refine Or.inr ⟨h, ?_⟩
        rw [if_pos h] at hab
        omega
      · refine Or.inl ?_
        rw [if_neg h] at hab
        omega

/-- A run of note deletes removes exactly the entries whose key is among
the deleted ids. -/
lemma mem_commitBatch_delNotes (l : List (String × NoteDoc)) :
    ∀ (db : DbState) (e : String × NoteDoc),
      e ∈ (commitBatch db (l.map (fun x => BatchOp.delNote x.1))).notes ↔
        e ∈ db.notes ∧ e.1 ∉ l.map Prod.fst := by
  induction l with
  | nil => intro db e; simp [commitBatch]
  | cons x xs ih =>
    intro db e
    rw [List.map_cons,
      show commitBatch db (BatchOp.delNote x.1 :: xs.map (fun x => BatchOp.delNote x.1)) =
        commitBatch (applyOp db (BatchOp.delNote x.1)) (xs.map (fun x => BatchOp.delNote x.1))
        from rfl,
      ih]
    simp only [applyOp, List.mem_filter, List.map_cons, List.mem_cons, decide_eq_true_eq]
    tauto

/-- Note deletes leave the projects collection unchanged. -/
lemma commitBatch_delNotes_projects (l : List (String × NoteDoc)) :
    ∀ db : DbState,
      (commitBatch db (l.map (fun x => BatchOp.delNote x.1))).projects = db.projects := by
  induction l with
  | nil => intro db; rfl
  | cons x xs ih => intro db; exact ih (applyOp db (BatchOp.delNote x.1))

/-- C1: a confirmed project deletion performs exactly one batched
commit, after which the notes collection holds exactly the previous
notes whose `projectId` differs from the deleted project's id, and the
projects collection holds exactly the previous projects with a
different id. -/
theorem handleConfirmDelete_success_spec (db : DbState)
    (lp : List (String × ProjectDoc)) (p : String × ProjectDoc)
    (hnd : (db.notes.map Prod.fst).Nodup) :
    (handleConfirmDelete db lp p .success).commits = 1 ∧
    (∀ e : String × NoteDoc,
      e ∈ (handleConfirmDelete db lp p .success).db.notes ↔
        e ∈ db.notes ∧ e.2.projectId ≠ p.1) ∧
    (∀ q : String × ProjectDoc,
      q ∈ (handleConfirmDelete db lp p .success).db.projects ↔
        q ∈ db.projects ∧ q.1 ≠ p.1) := by
  have hdb : (handleConfirmDelete db lp p .success).db =
      commitBatch
        (commitBatch db ((queryNotesByProject db p.1).map (fun x => BatchOp.delNote x.1)))
        [BatchOp.delProject p.1] := by
    show commitBatch db (deleteProjectBatch db p.1) = _
    rw [deleteProjectBatch]
    exact List.foldl_append _ _ _ _
  refine ⟨rfl, ?_, ?_⟩
  · intro e
    rw [hdb,
      show (commitBatch
          (commitBatch db ((queryNotesByProject db p.1).map (fun x => BatchOp.delNote x.1)))
          [BatchOp.delProject p.1]).notes =
        (commitBatch db ((queryNotesByProject db p.1).map (fun x => BatchOp.delNote x.1))).notes
        from rfl,
      mem_commitBatch_delNotes]
    constructor
    · rintro ⟨he, hids⟩
      refine ⟨he, fun hpid => hids ?_⟩
      exact List.mem_map.mpr ⟨e, by simp [queryNotesByProject, List.mem_filter, he, hpid], rfl⟩
    · rintro ⟨he, hpid⟩
      refine ⟨he, fun hids => ?_⟩
      rcases List.mem_map.mp hids with ⟨e0, he0, hfst⟩
      have he0n : e0 ∈ db.notes := (List.mem_filter.mp he0).1
      have hpid0 : e0.2.projectId = p.1 := by
        have := (List.mem_filter.mp he0).2
        simpa using this
      have heq : e0 = e := List.inj_on_of_nodup_map hnd he0n he hfst
      exact hpid (heq ▸ hpid0)
  · intro q
    rw [hdb,
      show (commitBatch
          (commitBatch db ((queryNotesByProject db p.1).map (fun x => BatchOp.delNote x.1)))
          [BatchOp.delProject p.1]).projects =
        ((commitBatch db
          ((queryNotesByProject db p.1).map (fun x => BatchOp.delNote x.1))).projects.filter
            (fun e => e.1 ≠ p.1))
        from rfl,
      commitBatch_delNotes_projects]
    simp [List.mem_filter]

/-- Witness for C1: in the demo database, deleting project `p1` removes
its note. -/
theorem handleConfirmDelete_success_spec_witness :
    ("n1", (⟨1, 1, "first note", "p1", "u1"⟩ : NoteDoc)) ∉
      (handleConfirmDelete dbDemo dbDemo.projects
        ("p1", ⟨"Pass 1", "", "u1", none⟩) .success).db.notes :=
  fun h =>
    (((handleConfirmDelete_success_spec dbDemo dbDemo.projects
        ("p1", ⟨"Pass 1", "", "u1", none⟩) (by decide)).2.1 _).mp h).2 rfl

/-- C9: project deletion is all-or-nothing: the batch contains one
delete per queried note plus the project delete and is committed exactly
once, and a rejected commit leaves the database and the local project
list unchanged, emitting only an error toast. -/
theorem handleConfirmDelete_failure_atomic (db : DbState)
    (lp : List (String × ProjectDoc)) (p : String × ProjectDoc) (m : String) :
    (handleConfirmDelete db lp p (.failure m)).db = db ∧
    (handleConfirmDelete db lp p (.failure m)).localProjects = lp ∧
    (handleConfirmDelete db lp p (.failure m)).toasts =
      [⟨"Failed to delete reading pass", m, true⟩] ∧
    (handleConfirmDelete db lp p (.failure m)).commits = 1 ∧
    deleteProjectBatch db p.1 =
      (queryNotesByProject db p.1).map (fun e => BatchOp.delNote e.1) ++
        [BatchOp.delProject p.1] :=
  ⟨rfl, rfl, rfl, rfl, rfl⟩

/-- C6: both note-writing operations preserve the referential invariant.
Creating a note through the form writes the `projectId` that
`ProjectView` verified to exist and to be owned by the current user, and
moving a note re-targets it at a project taken from the user's own
project query, so afterwards every note still references an existing
project owned by the note's user. -/
theorem noteWrites_preserve_refs (db : DbState) (hdb : noteRefsOk db) :
    (∀ (newId : String) (sv vv : Int) (txt pid uid : String) (pdoc : ProjectDoc),
      (pid, pdoc) ∈ db.projects → pdoc.userId = uid →
      noteRefsOk (createNote db newId sv vv txt pid uid)) ∧
    (∀ noteId target uid : String,
      (∃ q ∈ db.projects, q.1 = target ∧ q.2.userId = uid) →
      (∀ nd : NoteDoc, (noteId, nd) ∈ db.notes → nd.userId = uid) →
      noteRefsOk (moveNote db noteId target)) := by
  constructor
  · intro newId sv vv txt pid uid pdoc hp hu e he
    have he2 : e ∈ db.notes ∨ e = (newId, ⟨sv, vv, txt, pid, uid⟩) := by
      simpa [createNote] using he
    rcases he2 with h | h
    · exact hdb e h
    · subst h
      exact ⟨(pid, pdoc), hp, rfl, hu⟩
  · intro noteId target uid hq hn e he
    have he2 : ∃ a b, (a, b) ∈ db.notes ∧
        (if a = noteId then (a, (⟨b.surah, b.verse, b.text, target, b.userId⟩ : NoteDoc))
          else (a, b)) = e := by
      simpa [moveNote] using he
    rcases he2 with ⟨a, b, hab, heq⟩
    by_cases h : a = noteId
    · rw [if_pos h] at heq
      subst heq
      rcases hq with ⟨q, hqmem, hq1, hq2⟩
      have huid : b.userId = uid := hn b (h ▸ hab)
      refine ⟨q, hqmem, hq1, ?_⟩
      show q.2.userId = b.userId
      rw [hq2, huid]
    · rw [if_neg h] at heq
      subst heq
      exact hdb (a, b) hab

/-- Witness for C6: creating a note in `p1` and moving the existing note
to `p2` both keep the demo database well-referenced. -/
theorem noteWrites_preserve_refs_witness :
    noteRefsOk (createNote dbDemo "n2" 2 2 "second note" "p1" "u1") ∧
    noteRefsOk (moveNote dbDemo "n1" "p2") := by
  constructor
  · exact (noteWrites_preserve_refs dbDemo (by unfold noteRefsOk; decide)).1
      "n2" 2 2 "second note" "p1" "u1" ⟨"Pass 1", "", "u1", none⟩ (by decide) rfl
  · refine (noteWrites_preserve_refs dbDemo (by unfold noteRefsOk; decide)).2
      "n1" "p2" "u1" ⟨("p2", ⟨"Pass 2", "", "u1", none⟩), by decide, rfl, rfl⟩ ?_
    intro nd hnd
    have : nd = ⟨1, 1, "first note", "p1", "u1"⟩ := by
      simpa [dbDemo] using hnd
    rw [this]

/-- C7: at each embedded backend call site (load, create, update,
delete), a rejected operation produces exactly one user-facing
notification carrying the error message, and the trace contains no
second backend request: the single original attempt (none at all in the
subscription error callback) and zero retries. -/
theorem backendFailure_one_toast_no_retry (noteId m : String) :
    (noteHandleDelete noteId (.failure m)).backendOps = ["deleteDoc notes/" ++ noteId] ∧
    (noteHandleDelete noteId (.failure m)).toasts = [⟨"Failed to delete note", m, true⟩] ∧
    (noteFormAddAttempt (.failure m)).backendOps = ["addDoc notes"] ∧
    (noteFormAddAttempt (.failure m)).toasts = [⟨"Failed to save note", m, true⟩] ∧
    (moveNoteAttempt noteId (.failure m)).backendOps = ["updateDoc notes/" ++ noteId] ∧
    (moveNoteAttempt noteId (.failure m)).toasts = [⟨"Error moving note", m, true⟩] ∧
    (onNotesSnapshotError m).backendOps = [] ∧
    (onNotesSnapshotError m).toasts = [⟨"Failed to load notes", m, true⟩] :=
  ⟨rfl, rfl, rfl, rfl, rfl, rfl, rfl, rfl⟩

/-- C8: `fetchQuranVerse` requests the Arabic text and then the
translation for the chapter:verse reference (the second request exactly
when the first response was ok); it throws iff either response is not ok
or a request fails, and on success returns the record holding both the
Arabic text and the translation. -/
theorem fetchQuranVerse_spec (env : String → HttpResult) (s v : Int) :
    ((fetchQuranVerse env s v).1 =
      if respOk (env (arabicUrl s v)) then [arabicUrl s v, translationUrl s v]
      else [arabicUrl s v]) ∧
    ((∃ m, (fetchQuranVerse env s v).2 = .error m) ↔
      (respOk (env (arabicUrl s v)) = false ∨ respOk (env (translationUrl s v)) = false)) ∧
    (∀ a t : AyahData, env (arabicUrl s v) = .ok a → env (translationUrl s v) = .ok t →
      (fetchQuranVerse env s v).2 =
        .ok ⟨a.numberInSurah, a.text, t.text, a.surahNumber⟩) := by
  rcases h1 : env (arabicUrl s v) with b1 | st1 | m1
  · rcases h2 : env (translationUrl s v) with b2 | st2 | m2 <;>
      simp [fetchQuranVerse, h1, h2, respOk]
  · simp [fetchQuranVerse, h1, respOk]
  · simp [fetchQuranVerse, h1, respOk]

/-- Witness for C8: in the demo network both requests for 2:255 succeed
and the returned record carries the Arabic text and the translation. -/
theorem fetchQuranVerse_spec_witness :
    (fetchQuranVerse envDemo 2 255).2 =
      .ok ⟨255, "arabic 2:255", "english 2:255", 2⟩ :=
  (fetchQuranVerse_spec envDemo 2 255).2.2 ⟨255, "arabic 2:255", 2⟩
    ⟨255, "english 2:255", 2⟩ (by decide) (by decide)

/-- C5 (refuting the range invariant): for every surah list whose
entries are numbered 1–114 (as the data model requires), typing the
string "0" into both inputs and submitting writes a note with surah 0
and verse 0 to the backend.  The submit handler checks only JS
truthiness of the two fields ("0" is a truthy string), the clamp effect
does not fire because `Number("0") > null` is false in JS, and the
extraction effect never overwrites the typed fields for a text with no
reference. -/
theorem noteForm_submits_out_of_range (surahs : List QuranSurah)
    (hs : ∀ s ∈ surahs, 1 ≤ s.number ∧ s.number ≤ 114) :
    (runForm surahs "p1" "u1"
      [.setText "my reflection", .typeSurah "0", .typeVerse "0",
        .clampTick, .submit]).written =
      [⟨0, 0, "my reflection", "p1", "u1"⟩] := by
  have hfind : getMaxVerseNumber (some 0) surahs = none := by
    have h0 : surahs.find? (fun s => decide (s.number = (0 : Int))) = none := by
      rw [List.find?_eq_none]
      intro x hx
      have hx1 := hs x hx
      simp only [decide_eq_true_eq]
      omega
    simp [getMaxVerseNumber, h0]
  have hex : extractSurahVerse "my reflection" = ⟨none, none⟩ := by decide
  have s1 : formStep surahs "p1" "u1" initialForm (.setText "my reflection") =
      ⟨"my reflection", .vstr "", .vstr "", some 0, []⟩ := by
    show extractionEffect _ = _
    simp [extractionEffect, hex, initialForm]
  have s2 : formStep surahs "p1" "u1"
      (⟨"my reflection", .vstr "", .vstr "", some 0, []⟩ : NoteFormState) (.typeSurah "0") =
      ⟨"my reflection", .vstr "0", .vstr "", none, []⟩ := by
    show (⟨"my reflection", .vstr "0", .vstr "",
      getMaxVerseNumber (jsParseInt "0") surahs, []⟩ : NoteFormState) = _
    rw [show jsParseInt "0" = some 0 from by decide, hfind]
  have s3 : formStep surahs "p1" "u1"
      (⟨"my reflection", .vstr "0", .vstr "", none, []⟩ : NoteFormState) (.typeVerse "0") =
      ⟨"my reflection", .vstr "0", .vstr "0", none, []⟩ := rfl
  have s4 : formStep surahs "p1" "u1"
      (⟨"my reflection", .vstr "0", .vstr "0", none, []⟩ : NoteFormState) .clampTick =
      ⟨"my reflection", .vstr "0", .vstr "0", none, []⟩ := by
    show clampEffect surahs _ = _
    unfold clampEffect
    rw [show jsToNumber (JsVal.vstr "0") = some 0 from by decide, hfind]
    decide
  have s5 : formStep surahs "p1" "u1"
      (⟨"my reflection", .vstr "0", .vstr "0", none, []⟩ : NoteFormState) .submit =
      ⟨"", .vstr "", .vstr "", none, [⟨0, 0, "my reflection", "p1", "u1"⟩]⟩ := by
    show handleSubmit "p1" "u1" _ = _
    decide
  show (formStep surahs "p1" "u1" (formStep surahs "p1" "u1" (formStep surahs "p1" "u1"
    (formStep surahs "p1" "u1" (formStep surahs "p1" "u1" initialForm
      (.setText "my reflection")) (.typeSurah "0")) (.typeVerse "0"))
      .clampTick) .submit).written = _
  rw [s1, s2, s3, s4, s5]

/-- Witness for C5: the same run against the demo surah list. -/
theorem noteForm_submits_out_of_range_witness :
    (runForm surahsDemo "p1" "u1"
      [.setText "my reflection", .typeSurah "0", .typeVerse "0",
        .clampTick, .submit]).written =
      [⟨0, 0, "my reflection", "p1", "u1"⟩] :=
  noteForm_submits_out_of_range surahsDemo (by decide)

end QuranNotes
